import Mathlib

/-!
# Verification of the pvpccheap4 scheduling / execution / device-protocol core

Shallow embedding of the parts of the backend relevant to the scheduling
computation (`src/backend/src/services/schedule_computation.rs`), the
automation engine (`src/backend/src/services/automation_engine.rs`), the
generic MQTT request/response layer (`src/backend/src/integrations/mqtt.rs`)
and the Meross protocol client
(`src/backend/src/integrations/meross_mqtt.rs`), together with theorems
settling the specification claims about them.

Conventions of the embedding:
* Rust `f64` prices are modelled by `F`: either a rational value or NaN.
  `partial_cmp` returning `None` on NaN pairs is modelled by `Option Ordering`,
  and a Rust panic (the `.unwrap()` in the sort comparators) is modelled by
  an `Option` result where `none` means the computation panicked.
* `chrono::NaiveDateTime` values are only ever used at whole-hour resolution
  by this code, so they are modelled as an absolute hour index
  `HourTs = Int`, with `mkTs d h = d * 24 + h` standing for
  `date(d).and_hms_opt(h, 0, 0)`.
* The relational store is modelled as the spec directs (a simple keyed
  store): a `PriceStore` maps a date to the ordered price rows of that date
  and an `ExecStore` is the list of scheduled-execution rows.
* Effects of the MQTT transport (what a `request` returns, whether a
  connection is open) are passed in explicitly as parameters.
-/

namespace Pvpc

/-! ## Model of `f64` prices (value or NaN) -/

/-- A Rust `f64` as used for prices: either a numeric value (modelled as a
rational) or NaN. -/
inductive F where
  | nan : F
  | val : ℚ → F
deriving DecidableEq, Repr

/-- The `f64::partial_cmp`: `None` whenever one side is NaN. -/
def F.partialCmp : F → F → Option Ordering
  | F.val a, F.val b =>
      some (if a < b then Ordering.lt else if a = b then Ordering.eq else Ordering.gt)
  | _, _ => none

/-- Rust `<=` on `f64`: false whenever one side is NaN. -/
def F.le : F → F → Bool
  | F.val a, F.val b => decide (a ≤ b)
  | _, _ => false

/-- Rust `<` on `f64`: false whenever one side is NaN. -/
def F.lt : F → F → Bool
  | F.val a, F.val b => decide (a < b)
  | _, _ => false

/-- Rust `>` on `f64`: false whenever one side is NaN. -/
def F.gt : F → F → Bool
  | F.val a, F.val b => decide (a > b)
  | _, _ => false

/-- Whether a float is an actual numeric value (not NaN). -/
def F.isVal : F → Bool
  | F.val _ => true
  | F.nan => false

/-! ## Time model -/

/-- The `NaiveDateTime` at whole-hour resolution: the absolute hour index. -/
abbrev HourTs := Int

/-- The `date.and_hms_opt(h, 0, 0)` for day index `d` and hour-of-day `h`. -/
def mkTs (d : Int) (h : Nat) : HourTs := d * 24 + h

/-- The `timestamp.hour()`: hour-of-day of an absolute hour index. -/
def tsHour (t : HourTs) : Nat := (t.emod 24).toNat

/-! ## Price rows and the price store -/

/-- A row of the `prices` table (`models.rs`, `struct Price`); the `source`
column is irrelevant to the verified code and omitted. -/
structure Price where
  timestamp : HourTs
  price : F
deriving DecidableEq, Repr

/-- The price store, as seen through
`PriceService::get_prices_for_date(date)`: the price rows whose timestamp
falls on `date`, ordered as the database returns them. -/
abbrev PriceStore := Int → List Price

/-! ## Rule model -/

/-- The configuration fields of `automation_rules.config` that
`calculate_timestamps_for_rule` reads.  Each field is the result of the
corresponding JSON lookup chain in the source: `none` models a missing or
non-decodable field, and the `time_range_*` fields hold the hour parsed from
the leading `"HH"` of the stored `"HH:MM"` string. -/
structure RuleConfig where
  /-- `config["cheapest_hours"].as_i64()` -/
  cheapestHours : Option Int := none
  /-- hour parsed from `config["time_range_start"]` -/
  timeRangeStartHour : Option Nat := none
  /-- hour parsed from `config["time_range_end"]` -/
  timeRangeEndHour : Option Nat := none
  /-- `config["price_threshold"].as_f64()` -/
  priceThreshold : Option F := none
deriving DecidableEq, Repr

/-- A row of `automation_rules` (`models.rs`, `struct AutomationRule`),
restricted to the columns the verified code reads. -/
structure AutomationRule where
  id : Int
  ruleType : String
  action : String
  isEnabled : Bool
  config : RuleConfig
deriving DecidableEq, Repr

/-- Rust's `as usize` cast of an `i64` (wrapping into `[0, 2^64)`). -/
def usizeOfI64 (n : Int) : Nat := (n.emod (2 ^ 64)).toNat

/-! ## The price sort of `calculate_timestamps_for_rule`

`sorted_prices.sort_by(|a, b| a.price.partial_cmp(&b.price).unwrap())`:
a stable ascending sort whose comparator panics on NaN.  The panic is
modelled by an `Option` result.  Stability is modelled exactly: an element
is inserted in front of the first element of the already-sorted suffix that
compares `lt` or `eq` against it, so elements with equal prices keep their
original relative order, as Rust's stable `sort_by` guarantees. -/

/-- The comparator closure `|a, b| a.price.partial_cmp(&b.price)`. -/
def cmpPrice (a b : Price) : Option Ordering := F.partialCmp a.price b.price

/-- Stable insertion of one element into a price-sorted list; `none` models
the comparator's `.unwrap()` panicking on a NaN comparison. -/
def insertByPrice (x : Price) : List Price → Option (List Price)
  | [] => some [x]
  | y :: ys =>
    match cmpPrice x y with
    | none => none
    | some Ordering.gt => (insertByPrice x ys).map (fun t => y :: t)
    | some _ => some (x :: y :: ys)

/-- The stable sort `sort_by(price partial_cmp unwrap)`; `none` models a
panic of the comparator. -/
def sortByPrice : List Price → Option (List Price)
  | [] => some []
  | x :: xs => (sortByPrice xs).bind (insertByPrice x)

/-! ## `ScheduleComputationService::calculate_timestamps_for_rule` -/

/-- The price points gathered for a `cheapest_hours` rule: the window
filter of `calculate_timestamps_for_rule`
(`schedule_computation.rs:135-181`). -/
def windowPrices (ps : PriceStore) (cfg : RuleConfig) (date : Int) : List Price :=
  match cfg.timeRangeStartHour, cfg.timeRangeEndHour with
  | some start, some «end» =>
    if start > «end» then
      ((ps date).filter (fun p => decide (start ≤ tsHour p.timestamp))) ++
        ((ps (date + 1)).filter (fun p => decide (tsHour p.timestamp ≤ «end»)))
    else
      (ps date).filter
        (fun p => decide (start ≤ tsHour p.timestamp) && decide (tsHour p.timestamp ≤ «end»))
  | _, _ => ps date

/-- The `"cheapest_hours"` branch of `calculate_timestamps_for_rule`
(`schedule_computation.rs:112-193`): filter to the window, sort by price
ascending, take the first `hours_needed`; `none` models the sort panicking
on a NaN price. -/
def calcTimestampsCheapest (ps : PriceStore) (cfg : RuleConfig) (date : Int) :
    Option (List HourTs) :=
  let hoursNeeded := usizeOfI64 (cfg.cheapestHours.getD 6)
  (sortByPrice (windowPrices ps cfg date)).map
    (fun sorted => (sorted.take hoursNeeded).map (fun p => p.timestamp))

/-- The `"price_threshold"` branch of `calculate_timestamps_for_rule`
(`schedule_computation.rs:195-213`): every hour of the date whose price
satisfies `p.price <= threshold`, with the threshold read from the
`"price_threshold"` config key and defaulting to `0.10`. -/
def calcTimestampsThreshold (ps : PriceStore) (cfg : RuleConfig) (date : Int) :
    List HourTs :=
  let threshold := cfg.priceThreshold.getD (F.val (mkRat 1 10))
  ((ps date).filter (fun p => F.le p.price threshold)).map (fun p => p.timestamp)

/-- The `"time_schedule"` branch of `calculate_timestamps_for_rule`
(`schedule_computation.rs:214-255`).  `date.and_hms_opt(h, 0, 0)` is `none`
for `h ≥ 24`, which the source drops via `filter_map`; that is the
`filter (· < 24)`. -/
def calcTimestampsTimeSchedule (cfg : RuleConfig) (date : Int) : List HourTs :=
  let startHour := cfg.timeRangeStartHour.getD 0
  let endHour := cfg.timeRangeEndHour.getD 23
  if startHour ≤ endHour then
    ((List.range' startHour (endHour + 1 - startHour)).filter (fun h => h < 24)).map (mkTs date)
  else
    (((List.range' startHour (24 - startHour)).filter (fun h => h < 24)).map (mkTs date)) ++
      (((List.range (endHour + 1)).filter (fun h => h < 24)).map (mkTs (date + 1)))

/-- The `calculate_timestamps_for_rule` (`schedule_computation.rs:104-258`);
`none` models a panic, `some` the `Ok` list of timestamps (manual and
unknown rule types schedule nothing). -/
def calculateTimestampsForRule (ps : PriceStore) (rule : AutomationRule) (date : Int) :
    Option (List HourTs) :=
  if rule.ruleType = "cheapest_hours" then
    calcTimestampsCheapest ps rule.config date
  else if rule.ruleType = "price_threshold" then
    some (calcTimestampsThreshold ps rule.config date)
  else if rule.ruleType = "time_schedule" then
    some (calcTimestampsTimeSchedule rule.config date)
  else
    some []

/-! ## Scheduled executions -/

/-- Modelled from the spec: `status ∈ {Pending, Executed, Retrying, Failed,
Missed}` (§3); the enum `ExecutionStatus` itself lives in repository code
outside `src/` and is referenced by the verified services. -/
inductive ExecutionStatus where
  | pending | executed | retrying | failed | missed
deriving DecidableEq, Repr

/-- Modelled from the spec: a `ScheduledExecution` row with unique key
(rule id, scheduled hour), `expected_action`, `status`, `retry_count`,
`last_retry_at`, `next_retry_at` (§3); the struct lives in repository code
outside `src/` and is referenced by the verified services.  Instants such
as `next_retry_at` carry second resolution and are modelled as seconds. -/
structure ExecRow where
  id : Int
  ruleId : Int
  scheduledHour : HourTs
  expectedAction : String
  status : ExecutionStatus
  retryCount : Int
  executedAt : Option Int := none
  lastRetryAt : Option Int := none
  nextRetryAt : Option Int := none
deriving DecidableEq, Repr

/-- The scheduled-execution store, as the spec directs, a simple keyed
store: the list of rows. -/
abbrev ExecStore := List ExecRow

/-- Does the store contain a row with the unique key
`(rule_id, scheduled_hour)`? -/
def hasKey (st : ExecStore) (rid : Int) (h : HourTs) : Bool :=
  st.any (fun r => r.ruleId == rid && r.scheduledHour == h)

/-- Modelled from the spec: the `insert ... on_conflict (rule_id,
scheduled_hour) do_nothing` upsert of
`compute_schedule_for_rule_internal` — "insert-if-absent, never overwritten
once present" (§3); returns the store plus the number of rows actually
inserted (`Ok(1)` or `Ok(0)` in the source). -/
def insertIfAbsent (st : ExecStore) (row : ExecRow) : ExecStore × Nat :=
  if hasKey st row.ruleId row.scheduledHour then (st, 0) else (st ++ [row], 1)

/-- The `NewScheduledExecution` row built by
`compute_schedule_for_rule_internal` (`schedule_computation.rs:70-75`):
born Pending with zero retries (the database id is not part of the unique
key and is modelled as 0). -/
def freshRow (rule : AutomationRule) (t : HourTs) : ExecRow :=
  { id := 0, ruleId := rule.id, scheduledHour := t, expectedAction := rule.action,
    status := ExecutionStatus.pending, retryCount := 0 }

/-- The insertion loop of `compute_schedule_for_rule_internal`
(`schedule_computation.rs:68-99`). -/
def insertExecutions (rule : AutomationRule) (ts : List HourTs) (st : ExecStore) :
    ExecStore × Nat :=
  match ts with
  | [] => (st, 0)
  | t :: rest =>
    let step := insertIfAbsent st (freshRow rule t)
    let next := insertExecutions rule rest step.1
    (next.1, step.2 + next.2)

/-- The `compute_schedule_for_rule_internal` (`schedule_computation.rs:58-100`):
calculate the timestamps, then upsert one Pending row per timestamp;
`none` models a panic inside the calculation. -/
def computeScheduleForRuleInternal (ps : PriceStore) (rule : AutomationRule)
    (date : Int) (st : ExecStore) : Option (ExecStore × Nat) :=
  (calculateTimestampsForRule ps rule date).map (fun ts => insertExecutions rule ts st)

/-- The `find_cheapest_hours` (`scheduler.rs:4-21`): same panicking sort, with
`hours_needed = ceil(duration_minutes / 60.0)` cast `as usize` (the
float-to-usize cast saturates at 0 for negative values). -/
def find_cheapest_hours (prices : List Price) (durationMinutes : Int) :
    Option (List HourTs) :=
  (sortByPrice prices).map (fun sorted =>
    let hoursNeeded := (max 0 (Rat.ceil ((durationMinutes : ℚ) / 60))).toNat
    (sorted.take hoursNeeded).map (fun p => p.timestamp))

/-! ## `AutomationEngine`: reactive threshold evaluation -/

/-- The `PriceThresholdConfig` (`models.rs:238-243`). -/
structure PriceThresholdConfig where
  threshold : F
  comparison : String
deriving DecidableEq, Repr

/-- The `should_trigger` computation of
`AutomationEngine::evaluate_price_threshold`
(`automation_engine.rs:156-201`): given a decoded config and the current
price (`none` when no current-hour price exists), the rule triggers exactly
per the `comparison` match (`automation_engine.rs:186-190`).  A config that
fails to decode yields `should_trigger = false` in the source and is
outside this function's domain (it takes the decoded config). -/
def evaluatePriceThresholdTrigger (cfg : PriceThresholdConfig) (currentPrice : Option F) :
    Bool :=
  match currentPrice with
  | none => false
  | some price =>
    if cfg.comparison = "below" then F.lt price cfg.threshold
    else if cfg.comparison = "above" then F.gt price cfg.threshold
    else false

/-! ## `AutomationEngine::execute_current_hour`: inferred turn-offs -/

/-- The database state `execute_current_hour` queries: the rules table and
the scheduled-executions table. -/
structure EngineState where
  rules : List AutomationRule
  execs : List ExecRow
deriving DecidableEq, Repr

/-- The rule ids of the pending scheduled executions for the current hour
(`automation_engine.rs:688-704`): pending rows at `hourStart`, inner-joined
with `automation_rules`. -/
def scheduledRuleIds (st : EngineState) (hourStart : HourTs) : List Int :=
  ((st.execs.filter
      (fun e => e.scheduledHour == hourStart && e.status == ExecutionStatus.pending)).filter
    (fun e => st.rules.any (fun r => r.id == e.ruleId))).map (fun e => e.ruleId)

/-- The `rules_to_turn_off` query (`automation_engine.rs:712-717`): enabled
rules with action `"turn_on"` whose id is not among the current hour's
pending rule ids. -/
def rulesToTurnOff (st : EngineState) (hourStart : HourTs) : List AutomationRule :=
  st.rules.filter (fun r =>
    r.isEnabled && r.action == "turn_on" && !((scheduledRuleIds st hourStart).contains r.id))

/-- The `has_schedule_today` check (`automation_engine.rs:721-731`): some
scheduled-execution row of the rule, of any status, with
`today_start <= scheduled_hour <= today_end`. -/
def hasScheduleToday (st : EngineState) (rid : Int) (todayStart todayEnd : HourTs) : Bool :=
  st.execs.any (fun e =>
    e.ruleId == rid && decide (todayStart ≤ e.scheduledHour) &&
      decide (e.scheduledHour ≤ todayEnd))

/-- The set of rules for which `execute_current_hour` infers and executes
a turn-off at hour `hour` of day `date` (`automation_engine.rs:704-752`).
`today_end = 23:59:59` covers exactly the whole-hour timestamps up to hour
23 of the day. -/
def inferredTurnOffRules (st : EngineState) (date : Int) (hour : Nat) :
    List AutomationRule :=
  let hourStart := mkTs date hour
  (rulesToTurnOff st hourStart).filter
    (fun r => hasScheduleToday st r.id (mkTs date 0) (mkTs date 23))

/-! ## `AutomationEngine::update_scheduled_status` -/

/-- Modelled from the spec: the diesel change-set `UpdateScheduledExecution`
(a struct in repository code outside `src/`): a `none` field leaves the
column unchanged, a `some` field sets it; `nextRetryAt` is doubly optional
because the column is nullable (`Some(None)` clears it). -/
structure UpdateScheduledExecution where
  status : Option ExecutionStatus
  executedAt : Option Int
  retryCount : Option Int
  lastRetryAt : Option Int
  nextRetryAt : Option (Option Int)
deriving DecidableEq, Repr

/-- Modelled from the spec: applying a diesel change-set to a row (`none`
fields keep the stored column). -/
def applyUpdate (row : ExecRow) (u : UpdateScheduledExecution) : ExecRow :=
  { row with
    status := u.status.getD row.status
    executedAt := match u.executedAt with | some t => some t | none => row.executedAt
    retryCount := u.retryCount.getD row.retryCount
    lastRetryAt := match u.lastRetryAt with | some t => some t | none => row.lastRetryAt
    nextRetryAt := u.nextRetryAt.getD row.nextRetryAt }

/-- The `AutomationEngine::update_scheduled_status`
(`automation_engine.rs:786-857`), acting on the fetched row: on success the
row becomes Executed; on failure `retry_count` is incremented, and the row
becomes Failed when the new count reaches 5, else Retrying with
`next_retry_at = now + 1 minute` (times in seconds). -/
def updateScheduledStatus (row : ExecRow) (success : Bool) (now : Int) : ExecRow :=
  if success then
    applyUpdate row
      { status := some ExecutionStatus.executed, executedAt := some now,
        retryCount := none, lastRetryAt := none, nextRetryAt := some none }
  else
    let newRetryCount := row.retryCount + 1
    if newRetryCount ≥ 5 then
      applyUpdate row
        { status := some ExecutionStatus.failed, executedAt := none,
          retryCount := some newRetryCount, lastRetryAt := some now,
          nextRetryAt := some none }
    else
      applyUpdate row
        { status := some ExecutionStatus.retrying, executedAt := none,
          retryCount := some newRetryCount, lastRetryAt := some now,
          nextRetryAt := some (some (now + 60)) }

/-- One failed execution attempt as driven by the engine: only Pending rows
(`execute_current_hour`) and Retrying rows (`retry_failed_executions`) are
ever submitted for execution, so only those are updated. -/
def failStep (now : Int) (row : ExecRow) : ExecRow :=
  if row.status = ExecutionStatus.pending ∨ row.status = ExecutionStatus.retrying then
    updateScheduledStatus row false now
  else
    row

/-- A sequence of failed attempts at the given instants. -/
def failSteps (nows : List Int) (row : ExecRow) : ExecRow :=
  nows.foldl (fun r now => failStep now r) row

/-- The retry-count invariant of a scheduled-execution row: the count never
exceeds 5, and a row not yet Failed has at most 4 recorded failures. -/
def RetryInvariant (row : ExecRow) : Prop :=
  row.retryCount ≤ 5 ∧ (row.status ≠ ExecutionStatus.failed → row.retryCount ≤ 4)

/-! ## Generic MQTT layer (`integrations/mqtt.rs`) -/

/-- The `MqttError` (`mqtt.rs:45-52`). -/
inductive MqttError where
  | ConnectionFailed (msg : String)
  | SubscribeFailed (msg : String)
  | PublishFailed (msg : String)
  | Timeout
  | Disconnected
  | InvalidResponse (msg : String)
deriving DecidableEq, Repr

/-- The `Display for MqttError` (`mqtt.rs:54-65`). -/
def mqttErrorMessage : MqttError → String
  | MqttError.ConnectionFailed msg => "MQTT connection failed: " ++ msg
  | MqttError.SubscribeFailed msg => "MQTT subscribe failed: " ++ msg
  | MqttError.PublishFailed msg => "MQTT publish failed: " ++ msg
  | MqttError.Timeout => "MQTT operation timed out"
  | MqttError.Disconnected => "MQTT client disconnected"
  | MqttError.InvalidResponse msg => "Invalid MQTT response: " ++ msg

/-- A `PendingRequest` (`mqtt.rs:89-92`); the oneshot response channel is an
effect and is represented by the dispatch result instead. -/
structure PendingRequest where
  topicFilter : String
deriving DecidableEq, Repr

/-- The outstanding-request table of one `MqttConnection`. -/
abbrev PendingTable := List PendingRequest

/-- Rust `str::contains(&str)`: substring containment. -/
def strContains (haystack needle : String) : Bool :=
  decide (needle.data <:+: haystack.data)

/-- The match test of the event loop (`mqtt.rs:249`):
`topic.contains(&req.topic_filter) || req.topic_filter == "*"`. -/
def filterMatches (topic filter : String) : Bool :=
  strContains topic filter || filter == "*"

/-- The `Packet::Publish` arm of `MqttConnection::run_event_loop`
(`mqtt.rs:238-260`): the first pending request whose filter matches the
inbound message's topic is removed from the table and resolved with the
message; every other inbound message resolves nothing. -/
def dispatchPublish (tbl : PendingTable) (topic : String) :
    PendingTable × Option PendingRequest :=
  match tbl with
  | [] => ([], none)
  | r :: rest =>
    if filterMatches topic r.topicFilter then (rest, some r)
    else
      let next := dispatchPublish rest topic
      (r :: next.1, next.2)

/-- The registration step of `MqttConnection::request` (`mqtt.rs:339-346`):
push a pending entry carrying the response filter. -/
def registerPending (tbl : PendingTable) (filter : String) : PendingTable :=
  tbl ++ [{ topicFilter := filter }]

/-- The timeout cleanup of `MqttConnection::request` (`mqtt.rs:355-359`):
`pending.retain(|r| r.topic_filter != response_topic_filter)`. -/
def timeoutCleanup (tbl : PendingTable) (filter : String) : PendingTable :=
  tbl.filter (fun r => !(r.topicFilter == filter))

/-- The `MqttConnection::request` on the path where the connection is up, the
publish succeeds, and no matching response arrives before the timeout
(`mqtt.rs:324-362`): the pending entry is registered, the timer fires, the
registration is removed, and the call returns `Timeout`. -/
def requestTimedOut (tbl : PendingTable) (filter : String) :
    MqttError × PendingTable :=
  (MqttError.Timeout, timeoutCleanup (registerPending tbl filter) filter)

/-! ## Meross protocol client (`integrations/meross_mqtt.rs`) -/

/-- The `ProviderError` (`integrations/mod.rs:61-69`). -/
inductive ProviderError where
  | AuthenticationFailed (msg : String)
  | DeviceNotFound (id : String)
  | ConnectionError (msg : String)
  | RateLimited
  | InvalidCredentials
  | Timeout
  | Unknown (msg : String)
deriving DecidableEq, Repr

/-- The `Display for ProviderError` (`integrations/mod.rs:71-83`). -/
def providerErrorMessage : ProviderError → String
  | ProviderError.AuthenticationFailed msg => "Authentication failed: " ++ msg
  | ProviderError.DeviceNotFound id => "Device not found: " ++ id
  | ProviderError.ConnectionError msg => "Connection error: " ++ msg
  | ProviderError.RateLimited => "Rate limited by provider"
  | ProviderError.InvalidCredentials => "Invalid credentials"
  | ProviderError.Timeout => "Request timeout"
  | ProviderError.Unknown msg => "Unknown error: " ++ msg

end Pvpc

namespace Pvpc.MD5

/-! ### Executable MD5 over byte lists (bytes as `Nat < 256`), used by
`MerossMqttClient::calculate_sign` and `generate_mqtt_password`. -/

/-- Truncate to 32 bits. -/
def m32 (x : Nat) : Nat := x % 4294967296

/-- 32-bit addition. -/
def add32 (a b : Nat) : Nat := m32 (a + b)

/-- 32-bit bitwise complement. -/
def not32 (x : Nat) : Nat := Nat.xor x 4294967295

/-- 32-bit left rotation. -/
def rotl (x s : Nat) : Nat :=
  m32 (Nat.lor (m32 (Nat.shiftLeft x s)) (Nat.shiftRight x (32 - s)))

/-- The per-round shift amounts. -/
def shiftTable : List Nat :=
  [7, 12, 17, 22, 7, 12, 17, 22, 7, 12, 17, 22, 7, 12, 17, 22,
   5, 9, 14, 20, 5, 9, 14, 20, 5, 9, 14, 20, 5, 9, 14, 20,
   4, 11, 16, 23, 4, 11, 16, 23, 4, 11, 16, 23, 4, 11, 16, 23,
   6, 10, 15, 21, 6, 10, 15, 21, 6, 10, 15, 21, 6, 10, 15, 21]

/-- The sine-derived round constants. -/
def kTable : List Nat :=
  [0xd76aa478, 0xe8c7b756, 0x242070db, 0xc1bdceee,
   0xf57c0faf, 0x4787c62a, 0xa8304613, 0xfd469501,
   0x698098d8, 0x8b44f7af, 0xffff5bb1, 0x895cd7be,
   0x6b901122, 0xfd987193, 0xa679438e, 0x49b40821,
   0xf61e2562, 0xc040b340, 0x265e5a51, 0xe9b6c7aa,
   0xd62f105d, 0x02441453, 0xd8a1e681, 0xe7d3fbc8,
   0x21e1cde6, 0xc33707d6, 0xf4d50d87, 0x455a14ed,
   0xa9e3e905, 0xfcefa3f8, 0x676f02d9, 0x8d2a4c8a,
   0xfffa3942, 0x8771f681, 0x6d9d6122, 0xfde5380c,
   0xa4beea44, 0x4bdecfa9, 0xf6bb4b60, 0xbebfbc70,
   0x289b7ec6, 0xeaa127fa, 0xd4ef3085, 0x04881d05,
   0xd9d4d039, 0xe6db99e5, 0x1fa27cf8, 0xc4ac5665,
   0xf4292244, 0x432aff97, 0xab9423a7, 0xfc93a039,
   0x655b59c3, 0x8f0ccc92, 0xffeff47d, 0x85845dd1,
   0x6fa87e4f, 0xfe2ce6e0, 0xa3014314, 0x4e0811a1,
   0xf7537e82, 0xbd3af235, 0x2ad7d2bb, 0xeb86d391]

/-- The working state (A, B, C, D). -/
structure St where
  a : Nat
  b : Nat
  c : Nat
  d : Nat
deriving DecidableEq, Repr

/-- One of the 64 MD5 rounds. -/
def round (m : List Nat) (st : St) (i : Nat) : St :=
  let fg : Nat × Nat :=
    if i < 16 then
      (Nat.lor (Nat.land st.b st.c) (Nat.land (not32 st.b) st.d), i)
    else if i < 32 then
      (Nat.lor (Nat.land st.d st.b) (Nat.land (not32 st.d) st.c), (5 * i + 1) % 16)
    else if i < 48 then
      (Nat.xor (Nat.xor st.b st.c) st.d, (3 * i + 5) % 16)
    else
      (Nat.xor st.c (Nat.lor st.b (not32 st.d)), (7 * i) % 16)
  let f := add32 (add32 (add32 fg.1 st.a) (kTable.getD i 0)) (m.getD fg.2 0)
  { a := st.d, b := add32 st.b (rotl f (shiftTable.getD i 0)), c := st.b, d := st.c }

/-- Decode the sixteen little-endian 32-bit words of one 64-byte chunk. -/
def chunkWords (chunk : List Nat) : List Nat :=
  (List.range 16).map (fun j =>
    chunk.getD (4 * j) 0 + 256 * chunk.getD (4 * j + 1) 0 +
      65536 * chunk.getD (4 * j + 2) 0 + 16777216 * chunk.getD (4 * j + 3) 0)

/-- Process one 64-byte chunk. -/
def processChunk (st : St) (chunk : List Nat) : St :=
  let m := chunkWords chunk
  let r := (List.range 64).foldl (round m) st
  { a := add32 st.a r.a, b := add32 st.b r.b, c := add32 st.c r.c, d := add32 st.d r.d }

/-- Split a byte list into 64-byte chunks (structural recursion on a fuel
bound so that the definition reduces inside the kernel). -/
def toChunksAux : Nat → List Nat → List (List Nat)
  | 0, _ => []
  | _, [] => []
  | fuel + 1, b :: rest =>
    ((b :: rest).take 64) :: toChunksAux fuel ((b :: rest).drop 64)

/-- Split a byte list into 64-byte chunks. -/
def toChunks (l : List Nat) : List (List Nat) :=
  toChunksAux l.length l

/-- Little-endian byte expansion of a number to `n` bytes. -/
def leBytes (n x : Nat) : List Nat :=
  (List.range n).map (fun i => (Nat.shiftRight x (8 * i)) % 256)

/-- MD5 padding: a `0x80` byte, zeros to 56 mod 64, then the bit length as
eight little-endian bytes. -/
def pad (msg : List Nat) : List Nat :=
  let padLen := (64 + 56 - ((msg.length + 1) % 64)) % 64
  msg ++ [128] ++ List.replicate padLen 0 ++ leBytes 8 (8 * msg.length)

/-- The 16 digest bytes of a message. -/
def digestBytes (msg : List Nat) : List Nat :=
  let st0 : St := { a := 0x67452301, b := 0xefcdab89, c := 0x98badcfe, d := 0x10325476 }
  let st := (toChunks (pad msg)).foldl processChunk st0
  leBytes 4 st.a ++ leBytes 4 st.b ++ leBytes 4 st.c ++ leBytes 4 st.d

/-- A lowercase hexadecimal digit. -/
def hexDigit (n : Nat) : Char :=
  if n < 10 then Char.ofNat (48 + n) else Char.ofNat (87 + n)

/-- Rust formatting of a digest with the lowercase hex formatter: the
32-character hex rendering of
an MD5 digest. -/
def md5hex (msg : List Nat) : String :=
  String.mk ((digestBytes msg).flatMap (fun b => [hexDigit (b / 16), hexDigit (b % 16)]))

end Pvpc.MD5

namespace Pvpc

/-- The bytes of a string (`str::as_bytes`); the strings signed by this
protocol (hex ids, account ids, decimal timestamps, JSON) are ASCII, for
which the UTF-8 bytes are the code points. -/
def strBytes (s : String) : List Nat := s.data.map (fun c => c.toNat)

/-- The `MerossMqttClient::calculate_sign` (`meross_mqtt.rs:151-155`):
`md5(message_id + key + timestamp)` rendered as lowercase hex. -/
def calculateSign (messageId key : String) (timestamp : Int) : String :=
  MD5.md5hex (strBytes (messageId ++ key ++ toString timestamp))

/-- The `MerossMqttClient::generate_mqtt_password` (`meross_mqtt.rs:182-186`):
`md5(user_id + key)`. -/
def generateMqttPassword (userId key : String) : String :=
  MD5.md5hex (strBytes (userId ++ key))

/-- Standard base64 alphabet. -/
def base64Chars : List Char :=
  "ABCDEFGHIJKLMNOPQRSTUVWXYZabcdefghijklmnopqrstuvwxyz0123456789+/".data

/-- Standard base64 encoding with `=` padding, used only to state the
spec's version of the signature formula. -/
def base64Encode : List Nat → String
  | [] => ""
  | [b0] =>
    String.mk [base64Chars.getD (b0 / 4) 'A',
      base64Chars.getD ((b0 % 4) * 16) 'A'] ++ "=="
  | [b0, b1] =>
    String.mk [base64Chars.getD (b0 / 4) 'A',
      base64Chars.getD ((b0 % 4) * 16 + b1 / 16) 'A',
      base64Chars.getD ((b1 % 16) * 4) 'A'] ++ "="
  | b0 :: b1 :: b2 :: rest =>
    String.mk [base64Chars.getD (b0 / 4) 'A',
      base64Chars.getD ((b0 % 4) * 16 + b1 / 16) 'A',
      base64Chars.getD ((b1 % 16) * 4 + b2 / 64) 'A',
      base64Chars.getD (b2 % 64) 'A'] ++ base64Encode rest

/-! ### Meross messages -/

/-- A JSON value (`serde_json::Value`). -/
inductive JVal where
  | jnull : JVal
  | jbool : Bool → JVal
  | jnum : Int → JVal
  | jstr : String → JVal
  | jarr : List JVal → JVal
  | jobj : List (String × JVal) → JVal

/-- The `MerossHeader` (`meross_mqtt.rs:17-28`); the Rust fields `from` and
`namespace` are Lean keywords and are called `fromTopic` and `ns` here. -/
structure MerossHeader where
  messageId : String
  method : String
  fromTopic : String
  ns : String
  timestamp : Int
  timestampMs : Int
  sign : String
  payloadVersion : Int
deriving DecidableEq, Repr

/-- The `MerossMessage` (`meross_mqtt.rs:30-35`). -/
structure MerossMessage where
  header : MerossHeader
  payload : JVal

/-- The identity and connection state of one `MerossMqttClient`
(`meross_mqtt.rs:84-91`); `connected` models whether `connection` is
`Some`. -/
structure MerossMqttClientState where
  connected : Bool
  userId : String
  key : String
  mqttDomain : String
  appId : String

/-- The `MerossMqttClient::build_device_topic` (`meross_mqtt.rs:170-172`). -/
def buildDeviceTopic (deviceUuid : String) : String :=
  "/appliance/" ++ deviceUuid ++ "/subscribe"

/-- The `MerossMqttClient::build_client_topic` (`meross_mqtt.rs:175-177`). -/
def buildClientTopic (st : MerossMqttClientState) : String :=
  "/app/" ++ st.userId ++ "-" ++ st.appId ++ "/subscribe"

/-- The `MerossMqttClient::build_message` (`meross_mqtt.rs:240-258`).  The
message id and timestamp are produced effectfully in the source
(`generate_message_id`, `get_timestamp`) and enter here as parameters. -/
def buildMessage (st : MerossMqttClientState) (ns method : String) (payload : JVal)
    (messageId : String) (timestamp : Int) : MerossMessage :=
  { header :=
      { messageId := messageId
        method := method
        fromTopic := buildClientTopic st
        ns := ns
        timestamp := timestamp
        timestampMs := timestamp * 1000
        sign := calculateSign messageId st.key timestamp
        payloadVersion := 1 }
    payload := payload }

/-- The pending-table entry that `send_command` registers through
`conn.request`: the response filter is the outgoing message's
`message_id` (`meross_mqtt.rs:277` with `mqtt.rs:339-346`). -/
def sendCommandPending (msg : MerossMessage) : PendingRequest :=
  { topicFilter := msg.header.messageId }

/-- The `MerossMqttClient::send_command` (`meross_mqtt.rs:261-295`), with the
transport's answer passed in: `requestResult` is what `conn.request`
returns, the inner `Except String` being the result of parsing the raw
response as a `MerossMessage` (a parse failure carries the serde error
text).  Not connected, request errors, and parse failures map to the
errors the source builds. -/
def sendCommand (st : MerossMqttClientState)
    (requestResult : Except MqttError (Except String MerossMessage)) :
    Except ProviderError JVal :=
  if !st.connected then
    Except.error (ProviderError.ConnectionError "Not connected to MQTT")
  else
    match requestResult with
    | Except.error e =>
        Except.error (ProviderError.ConnectionError (mqttErrorMessage e))
    | Except.ok (Except.error e) =>
        Except.error (ProviderError.Unknown ("Failed to parse response: " ++ e))
    | Except.ok (Except.ok responseMsg) => Except.ok responseMsg.payload

/-- The `DeviceState` (`integrations/mod.rs:52-57`). -/
structure DeviceState where
  isOn : Bool
  brightness : Option Nat
  temperature : Option F
  powerConsumptionWatts : Option F
deriving DecidableEq, Repr

/-- The `DeviceActionResult` (`integrations/mod.rs:44-48`). -/
structure DeviceActionResult where
  success : Bool
  message : Option String
  newState : Option DeviceState
deriving DecidableEq, Repr

/-- The `togglex` payload of `turn_on`/`turn_off`
(`meross_mqtt.rs:299-304`, `meross_mqtt.rs:333-338`). -/
def togglePayload (channel : Int) (onoff : Int) : JVal :=
  JVal.jobj [("togglex", JVal.jobj [("channel", JVal.jnum channel), ("onoff", JVal.jnum onoff)])]

/-- The `MerossMqttClient::turn_on` (`meross_mqtt.rs:298-329`): any
`send_command` error is swallowed into an `Ok` failed-action result. -/
def turnOn (st : MerossMqttClientState)
    (requestResult : Except MqttError (Except String MerossMessage)) :
    Except ProviderError DeviceActionResult :=
  match sendCommand st requestResult with
  | Except.ok _ =>
      Except.ok
        { success := true, message := some "Device turned on",
          newState := some
            { isOn := true, brightness := none, temperature := none,
              powerConsumptionWatts := none } }
  | Except.error e =>
      Except.ok
        { success := false, message := some (providerErrorMessage e), newState := none }

/-- The `MerossMqttClient::turn_off` (`meross_mqtt.rs:332-363`). -/
def turnOff (st : MerossMqttClientState)
    (requestResult : Except MqttError (Except String MerossMessage)) :
    Except ProviderError DeviceActionResult :=
  match sendCommand st requestResult with
  | Except.ok _ =>
      Except.ok
        { success := true, message := some "Device turned off",
          newState := some
            { isOn := false, brightness := none, temperature := none,
              powerConsumptionWatts := none } }
  | Except.error e =>
      Except.ok
        { success := false, message := some (providerErrorMessage e), newState := none }

/-! ### Decoding `SystemAllResponse` (`meross_mqtt.rs:55-81`) -/

/-- The `ToggleXState` (`meross_mqtt.rs:72-76`). -/
structure ToggleXState where
  channel : Int
  onoff : Int
deriving DecidableEq, Repr

/-- The `ToggleState` (`meross_mqtt.rs:78-81`). -/
structure ToggleState where
  onoff : Int
deriving DecidableEq, Repr

/-- The `Digest` (`meross_mqtt.rs:66-70`). -/
structure MerossDigest where
  togglex : Option (List ToggleXState)
  toggle : Option ToggleState
deriving DecidableEq, Repr

/-- The `SystemAll` (`meross_mqtt.rs:61-64`). -/
structure SystemAll where
  digest : Option MerossDigest
deriving DecidableEq, Repr

/-- The `SystemAllResponse` (`meross_mqtt.rs:56-59`). -/
structure SystemAllResponse where
  all : Option SystemAll
deriving DecidableEq, Repr

/-- Field lookup in a JSON object. -/
def jGet (fields : List (String × JVal)) (k : String) : Option JVal :=
  (fields.find? (fun f => f.1 == k)).map (fun f => f.2)

/-- serde deserialization of an `i32` field value. -/
def decodeI32 : JVal → Option Int
  | JVal.jnum n => if -(2 ^ 31) ≤ n ∧ n < 2 ^ 31 then some n else none
  | _ => none

/-- serde deserialization of an `Option`-typed struct field: a missing or
null field is `None`, a present field must decode. -/
def decodeOptField (fields : List (String × JVal)) (k : String)
    (dec : JVal → Option α) : Option (Option α) :=
  match jGet fields k with
  | none => some none
  | some JVal.jnull => some none
  | some v => (dec v).map some

/-- serde deserialization of `ToggleXState`. -/
def decodeToggleX : JVal → Option ToggleXState
  | JVal.jobj fs => do
      let ch ← jGet fs "channel" >>= decodeI32
      let oo ← jGet fs "onoff" >>= decodeI32
      some { channel := ch, onoff := oo }
  | _ => none

/-- serde deserialization of `ToggleState`. -/
def decodeToggle : JVal → Option ToggleState
  | JVal.jobj fs => do
      let oo ← jGet fs "onoff" >>= decodeI32
      some { onoff := oo }
  | _ => none

/-- serde deserialization of a JSON array elementwise. -/
def decodeArr (dec : JVal → Option α) : JVal → Option (List α)
  | JVal.jarr xs => xs.mapM dec
  | _ => none

/-- serde deserialization of `Digest`. -/
def decodeDigest : JVal → Option MerossDigest
  | JVal.jobj fs => do
      let tx ← decodeOptField fs "togglex" (decodeArr decodeToggleX)
      let tg ← decodeOptField fs "toggle" decodeToggle
      some { togglex := tx, toggle := tg }
  | _ => none

/-- serde deserialization of `SystemAll`. -/
def decodeSystemAll : JVal → Option SystemAll
  | JVal.jobj fs => do
      let dg ← decodeOptField fs "digest" decodeDigest
      some { digest := dg }
  | _ => none

/-- serde deserialization of `SystemAllResponse`. -/
def decodeSystemAllResponse : JVal → Option SystemAllResponse
  | JVal.jobj fs => do
      let al ← decodeOptField fs "all" decodeSystemAll
      some { all := al }
  | _ => none

/-- The `is_on` extraction of `get_state` (`meross_mqtt.rs:377-391`):
prefer the first entry of a `togglex` list, fall back to a single `toggle`,
default to off. -/
def getStateIsOn (sys : SystemAllResponse) : Bool :=
  match sys.all with
  | some all =>
    match all.digest with
    | some dg =>
      match dg.togglex with
      | some txs => ((txs.head?).map (fun t => t.onoff == 1)).getD false
      | none =>
        match dg.toggle with
        | some tg => tg.onoff == 1
        | none => false
    | none => false
  | none => false

/-- The `MerossMqttClient::get_state` (`meross_mqtt.rs:366-399`): note the `?`
on `send_command` — transport errors propagate to the caller (the parse
error text of the state payload is abstracted to its fixed prefix). -/
def getState (st : MerossMqttClientState)
    (requestResult : Except MqttError (Except String MerossMessage)) :
    Except ProviderError DeviceState :=
  match sendCommand st requestResult with
  | Except.error e => Except.error e
  | Except.ok payload =>
    match decodeSystemAllResponse payload with
    | none => Except.error (ProviderError.Unknown "Failed to parse state")
    | some sys =>
        Except.ok
          { isOn := getStateIsOn sys, brightness := none, temperature := none,
            powerConsumptionWatts := none }

/-! ## Spec-side refinement definitions

These three definitions follow the specification's words (not the source)
and exist only to be compared against the source-derived definitions
above. -/

/-- Spec §4.1/§8 (claim C5): "select every hour whose price satisfies
`comparison ∈ {below, above}` against `threshold`", with `below`/`above`
read strictly as in the spec's worked example. -/
def specThresholdSelects (comparison : String) (threshold price : F) : Bool :=
  if comparison = "below" then F.lt price threshold
  else if comparison = "above" then F.gt price threshold
  else false

/-- Spec §4.2 (claim C6): infer a turn-off for every enabled TurnOn rule
that has some scheduled hour for the current day but no scheduled hour —
of any status — equal to the current hour. -/
def specInferredTurnOffRules (st : EngineState) (date : Int) (hour : Nat) :
    List AutomationRule :=
  st.rules.filter (fun r =>
    r.isEnabled && r.action == "turn_on" &&
      !(st.execs.any (fun e => e.ruleId == r.id && e.scheduledHour == mkTs date hour)) &&
      st.execs.any (fun e =>
        e.ruleId == r.id && decide (mkTs date 0 ≤ e.scheduledHour) &&
          decide (e.scheduledHour ≤ mkTs date 23)))

/-- Spec §4.4 (claim C2): `signature = digest(shared_secret + timestamp +
message_id + base64(payload_json))`. -/
def specSignature (messageId sharedSecret : String) (timestamp : Int)
    (payloadJson : String) : String :=
  MD5.md5hex (strBytes
    (sharedSecret ++ toString timestamp ++ messageId ++ base64Encode (strBytes payloadJson)))

/-! ## Concrete fixtures for the turn-off inference claims -/

/-- An enabled TurnOn rule used in concrete evaluations of the turn-off
inference. -/
def c6Rule : AutomationRule :=
  { id := 1, ruleType := "cheapest_hours", action := "turn_on",
    isEnabled := true, config := {} }

/-- State where `c6Rule` has a row at hour 10 of day 0 in status
Executed. -/
def c6StateExecutedAtHour : EngineState :=
  { rules := [c6Rule],
    execs := [{ id := 5, ruleId := 1, scheduledHour := mkTs 0 10,
                expectedAction := "turn_on",
                status := ExecutionStatus.executed, retryCount := 0 }] }

/-- State where `c6Rule` has a Pending row at hour 14 of day 0 and nothing
at hour 10. -/
def c6StatePendingLater : EngineState :=
  { rules := [c6Rule],
    execs := [{ id := 9, ruleId := 1, scheduledHour := mkTs 0 14,
                expectedAction := "turn_on",
                status := ExecutionStatus.pending, retryCount := 0 }] }

/-! ## Concrete fixtures for the protocol-client claims -/

/-- A connected Meross client with a realistic account id and app id. -/
def c1Client : MerossMqttClientState :=
  { connected := true, userId := "48689", key := "k",
    mqttDomain := "mqtt-eu-5.meross.com", appId := "0011223344556677" }

/-- A 32-hex-character message id, as `generate_message_id` produces. -/
def c1MsgId : String := "0123456789abcdef0123456789abcdef"

/-- A Meross client whose connection was never opened
(`connection == None`). -/
def c9Disconnected : MerossMqttClientState :=
  { connected := false, userId := "48689", key := "k",
    mqttDomain := "mqtt-eu-5.meross.com", appId := "0011223344556677" }

/-- A connected Meross client for the timeout-propagation evaluation. -/
def c9Connected : MerossMqttClientState :=
  { connected := true, userId := "48689", key := "k",
    mqttDomain := "mqtt-eu-5.meross.com", appId := "0011223344556677" }

/-- A Pending row fresh from schedule computation, used to drive the retry
state machine. -/
def c7PendingRow : ExecRow :=
  { id := 11, ruleId := 1, scheduledHour := mkTs 0 10,
    expectedAction := "turn_on", status := ExecutionStatus.pending,
    retryCount := 0 }

/-! ## Helper lemmas about the price sort -/

/-- The ascending-price relation established by the sort. -/
def priceLe (a b : Price) : Prop := F.le a.price b.price = true

lemma F.le_trans {a b c : F} (hab : F.le a b = true) (hbc : F.le b c = true) :
    F.le a c = true := by
  cases a with
  | nan => simp [F.le] at hab
  | val qa =>
    cases b with
    | nan => simp [F.le] at hab
    | val qb =>
      cases c with
      | nan => simp [F.le] at hbc
      | val qc =>
        simp only [F.le, decide_eq_true_eq] at hab hbc ⊢
        exact hab.trans hbc

lemma priceLe_trans {a b c : Price} (hab : priceLe a b) (hbc : priceLe b c) :
    priceLe a c := F.le_trans hab hbc

/-- Inserting a numeric-priced element into a list of numeric-priced
elements never panics, permutes the consed list, and preserves
sortedness. -/
lemma insertByPrice_of_val (x : Price) (qx : ℚ) (hx : x.price = F.val qx) :
    ∀ l : List Price, (∀ p ∈ l, p.price.isVal = true) →
      ∃ l', insertByPrice x l = some l' ∧ l'.Perm (x :: l) ∧
        (l.Pairwise priceLe → l'.Pairwise priceLe) := by
  intro l
  induction l with
  | nil =>
    intro _
    exact ⟨[x], rfl, List.Perm.refl _, fun _ => List.pairwise_singleton _ _⟩
  | cons y ys ih =>
    intro hval
    obtain ⟨qy, hy⟩ : ∃ qy, y.price = F.val qy := by
      have := hval y (by simp)
      cases hyy : y.price with
      | nan => rw [hyy] at this; simp [F.isVal] at this
      | val q => exact ⟨q, rfl⟩
    have hcmp : cmpPrice x y =
        some (if qx < qy then Ordering.lt else if qx = qy then Ordering.eq else Ordering.gt) := by
      simp [cmpPrice, hx, hy, F.partialCmp]
    by_cases hlt : qx < qy
    · refine ⟨x :: y :: ys, ?_, List.Perm.refl _, ?_⟩
      · simp [insertByPrice, hcmp, hlt]
      · intro hpair
        refine List.Pairwise.cons ?_ hpair
        intro p hp
        rcases List.mem_cons.mp hp with hp | hp
        · subst hp; simp only [priceLe, F.le, hx, hy, decide_eq_true_eq]
          exact le_of_lt hlt
        · have hyp : priceLe y p := (List.pairwise_cons.mp hpair).1 p hp
          refine priceLe_trans ?_ hyp
          simp only [priceLe, F.le, hx, hy, decide_eq_true_eq]
          exact le_of_lt hlt
    · by_cases heq : qx = qy
      · refine ⟨x :: y :: ys, ?_, List.Perm.refl _, ?_⟩
        · simp [insertByPrice, hcmp, hlt, heq]
        · intro hpair
          refine List.Pairwise.cons ?_ hpair
          intro p hp
          rcases List.mem_cons.mp hp with hp | hp
          · subst hp; simp only [priceLe, F.le, hx, hy, heq, decide_eq_true_eq]
            exact le_refl qy
          · have hyp : priceLe y p := (List.pairwise_cons.mp hpair).1 p hp
            refine priceLe_trans ?_ hyp
            simp only [priceLe, F.le, hx, hy, heq, decide_eq_true_eq]
            exact le_refl qy
      · -- qy < qx : the comparator answers `gt`, recurse into the tail
        obtain ⟨l'', hins, hperm, hpairp⟩ := ih (fun p hp => hval p (by simp [hp]))
        refine ⟨y :: l'', ?_, ?_, ?_⟩
        · simp [insertByPrice, hcmp, hlt, heq, hins]
        · exact (List.Perm.cons y hperm).trans (List.Perm.swap x y ys)
        · intro hpair
          have hyys := List.pairwise_cons.mp hpair
          refine List.Pairwise.cons ?_ (hpairp hyys.2)
          intro p hp
          have hp' : p ∈ x :: ys := hperm.mem_iff.mp hp
          have hylex : priceLe y x := by
            simp only [priceLe, F.le, hx, hy, decide_eq_true_eq]
            exact le_of_not_lt hlt
          rcases List.mem_cons.mp hp' with hp' | hp'
          · subst hp'; exact hylex
          · exact hyys.1 p hp'

/-- Sorting a list of numeric prices never panics, permutes the input, and
yields an ascending list. -/
lemma sortByPrice_of_val :
    ∀ l : List Price, (∀ p ∈ l, p.price.isVal = true) →
      ∃ l', sortByPrice l = some l' ∧ l'.Perm l ∧ l'.Pairwise priceLe := by
  intro l
  induction l with
  | nil => intro _; exact ⟨[], rfl, List.Perm.refl _, List.Pairwise.nil⟩
  | cons x xs ih =>
    intro hval
    obtain ⟨s, hs, hperm, hpair⟩ := ih (fun p hp => hval p (by simp [hp]))
    obtain ⟨qx, hqx⟩ : ∃ qx, x.price = F.val qx := by
      have := hval x (by simp)
      cases hxx : x.price with
      | nan => rw [hxx] at this; simp [F.isVal] at this
      | val q => exact ⟨q, rfl⟩
    have hvs : ∀ p ∈ s, p.price.isVal = true := fun p hp =>
      hval p (by simp [hperm.mem_iff.mp hp])
    obtain ⟨l', hins, hperm', hpair'⟩ := insertByPrice_of_val x qx hqx s hvs
    refine ⟨l', ?_, ?_, hpair' hpair⟩
    · simp [sortByPrice, hs, hins]
    · exact hperm'.trans (List.Perm.cons x hperm)

/-- In an ascending list, everything kept by `take n` is at most everything
discarded into `drop n`. -/
lemma pairwise_take_le_drop {l : List Price} (h : l.Pairwise priceLe) (n : Nat) :
    ∀ a ∈ l.take n, ∀ b ∈ l.drop n, priceLe a b := by
  have hsplit := List.take_append_drop n l
  rw [← hsplit] at h
  exact (List.pairwise_append.mp h).2.2

/-! ## Helper lemmas about the scheduled-execution upsert loop -/

lemma hasKey_append (st : ExecStore) (row : ExecRow) (rid : Int) (h : HourTs) :
    hasKey (st ++ [row]) rid h =
      (hasKey st rid h || (row.ruleId == rid && row.scheduledHour == h)) := by
  simp [hasKey, List.any_append]

/-- Inserting never removes a key. -/
lemma hasKey_insertIfAbsent (st : ExecStore) (row : ExecRow) (rid : Int) (h : HourTs)
    (hk : hasKey st rid h = true) :
    hasKey (insertIfAbsent st row).1 rid h = true := by
  unfold insertIfAbsent
  by_cases hc : hasKey st row.ruleId row.scheduledHour
  · simp [hc, hk]
  · simp [hc, hasKey_append, hk]

/-- After inserting, the inserted row's key is present. -/
lemma hasKey_insertIfAbsent_self (st : ExecStore) (row : ExecRow) :
    hasKey (insertIfAbsent st row).1 row.ruleId row.scheduledHour = true := by
  unfold insertIfAbsent
  by_cases hc : hasKey st row.ruleId row.scheduledHour
  · simp [hc]
  · simp [hc, hasKey_append]

/-- The insertion loop never removes a key. -/
lemma hasKey_insertExecutions (rule : AutomationRule) (ts : List HourTs) :
    ∀ (st : ExecStore) (rid : Int) (h : HourTs), hasKey st rid h = true →
      hasKey (insertExecutions rule ts st).1 rid h = true := by
  induction ts with
  | nil => intro st rid h hk; simp [insertExecutions, hk]
  | cons t rest ih =>
    intro st rid h hk
    simp only [insertExecutions]
    exact ih _ rid h (hasKey_insertIfAbsent st (freshRow rule t) rid h hk)

/-- After the insertion loop, every processed timestamp's key is present. -/
lemma insertExecutions_keys_present (rule : AutomationRule) (ts : List HourTs) :
    ∀ (st : ExecStore) (t : HourTs), t ∈ ts →
      hasKey (insertExecutions rule ts st).1 rule.id t = true := by
  induction ts with
  | nil => intro st t ht; cases ht
  | cons t0 rest ih =>
    intro st t ht
    simp only [insertExecutions]
    rcases List.mem_cons.mp ht with ht | ht
    · subst ht
      exact hasKey_insertExecutions rule rest _ rule.id t
        (hasKey_insertIfAbsent_self st (freshRow rule t))
    · exact ih _ t ht

/-- The insertion loop is a no-op when every key is already present. -/
lemma insertExecutions_noop (rule : AutomationRule) (ts : List HourTs) :
    ∀ st : ExecStore, (∀ t ∈ ts, hasKey st rule.id t = true) →
      insertExecutions rule ts st = (st, 0) := by
  induction ts with
  | nil => intro st _; rfl
  | cons t rest ih =>
    intro st hall
    have ht : hasKey st rule.id t = true := hall t (by simp)
    have hkey : hasKey st (freshRow rule t).ruleId (freshRow rule t).scheduledHour = true := ht
    simp only [insertExecutions, insertIfAbsent, hkey, if_pos]
    rw [ih st (fun t' ht' => hall t' (by simp [ht']))]
    rfl

/-- On a store holding no key of the processed timestamps, the insertion
loop appends exactly one fresh Pending row per timestamp. -/
lemma insertExecutions_fresh (rule : AutomationRule) :
    ∀ (ts : List HourTs) (st : ExecStore), ts.Nodup →
      (∀ t ∈ ts, hasKey st rule.id t = false) →
      insertExecutions rule ts st = (st ++ ts.map (freshRow rule), ts.length) := by
  intro ts
  induction ts with
  | nil => intro st _ _; simp [insertExecutions]
  | cons t rest ih =>
    intro st hnd habs
    have ht : hasKey st rule.id t = false := habs t (by simp)
    have hkey : hasKey st (freshRow rule t).ruleId (freshRow rule t).scheduledHour = false := ht
    simp only [insertExecutions, insertIfAbsent, hkey]
    have habs' : ∀ t' ∈ rest, hasKey (st ++ [freshRow rule t]) rule.id t' = false := by
      intro t' ht'
      rw [hasKey_append]
      have h1 : hasKey st rule.id t' = false := habs t' (by simp [ht'])
      have h2 : t ≠ t' := by
        intro hcontra; subst hcontra
        exact (List.nodup_cons.mp hnd).1 ht'
      simp [h1, freshRow, h2]
    rw [if_neg (by simp [hkey]), ih (st ++ [freshRow rule t]) (List.nodup_cons.mp hnd).2 habs']
    simp [List.append_assoc]
    omega

/-! ## Claim theorems -/

/-- C3: For a CheapestHours rule whose window holds at least
`hours_needed` price points (numeric, one per hour), schedule computation
returns exactly `hours_needed` timestamps, inserts exactly that many fresh
Pending rows for the rule, and every selected hour's price is ≤ every
non-selected hour's price within the window. -/
theorem cheapest_hours_selects_minimal_set
    (ps : PriceStore) (rule : AutomationRule) (date : Int) (st : ExecStore)
    (htype : rule.ruleType = "cheapest_hours")
    (hval : ∀ p ∈ windowPrices ps rule.config date, p.price.isVal = true)
    (hnodup : ((windowPrices ps rule.config date).map (fun p => p.timestamp)).Nodup)
    (hn : usizeOfI64 (rule.config.cheapestHours.getD 6) ≤
      (windowPrices ps rule.config date).length)
    (hfresh : ∀ r ∈ st, r.ruleId ≠ rule.id) :
    ∃ ts : List HourTs,
      calculateTimestampsForRule ps rule date = some ts ∧
      ts.length = usizeOfI64 (rule.config.cheapestHours.getD 6) ∧
      computeScheduleForRuleInternal ps rule date st =
        some (st ++ ts.map (freshRow rule), ts.length) ∧
      (∀ p ∈ windowPrices ps rule.config date, p.timestamp ∈ ts →
        ∀ q ∈ windowPrices ps rule.config date, q.timestamp ∉ ts →
          F.le p.price q.price = true) := by
  obtain ⟨l', hsort, hperm, hpair⟩ :=
    sortByPrice_of_val (windowPrices ps rule.config date) hval
  have hlen' : l'.length = (windowPrices ps rule.config date).length := hperm.length_eq
  refine ⟨(l'.take (usizeOfI64 (rule.config.cheapestHours.getD 6))).map
    (fun p => p.timestamp), ?_, ?_, ?_, ?_⟩
  case _ =>
    simp [calculateTimestampsForRule, htype, calcTimestampsCheapest, hsort]
  case _ =>
    simp only [List.length_map, List.length_take]
    omega
  case _ =>
    have hmapnodup : (l'.map (fun p => p.timestamp)).Nodup :=
      ((hperm.map (fun p => p.timestamp)).nodup_iff).mpr hnodup
    have htsnodup :
        ((l'.take (usizeOfI64 (rule.config.cheapestHours.getD 6))).map
          (fun p => p.timestamp)).Nodup := by
      rw [List.map_take]
      exact List.Nodup.sublist (List.take_sublist _ _) hmapnodup
    have habs : ∀ t ∈ (l'.take (usizeOfI64 (rule.config.cheapestHours.getD 6))).map
        (fun p => p.timestamp), hasKey st rule.id t = false := by
      intro t _
      rw [hasKey, List.any_eq_false]
      intro r hr
      have := hfresh r hr
      simp [this]
    rw [computeScheduleForRuleInternal]
    rw [show calculateTimestampsForRule ps rule date =
      some ((l'.take (usizeOfI64 (rule.config.cheapestHours.getD 6))).map
        (fun p => p.timestamp)) by
      simp [calculateTimestampsForRule, htype, calcTimestampsCheapest, hsort]]
    simp only [Option.map_some']
    rw [insertExecutions_fresh rule _ st htsnodup habs]
  case _ =>
    intro p hpw hpts q hqw hqts
    have hmapnodup : (l'.map (fun p => p.timestamp)).Nodup :=
      ((hperm.map (fun p => p.timestamp)).nodup_iff).mpr hnodup
    have hpl : p ∈ l' := hperm.mem_iff.mpr hpw
    have hql : q ∈ l' := hperm.mem_iff.mpr hqw
    obtain ⟨p', hp't, hp'e⟩ := List.mem_map.mp hpts
    have hp'l : p' ∈ l' := List.take_subset _ _ hp't
    have hpp : p' = p := List.inj_on_of_nodup_map hmapnodup hp'l hpl hp'e
    subst hpp
    have hqd : q ∈ l'.drop (usizeOfI64 (rule.config.cheapestHours.getD 6)) := by
      have hq2 : q ∈ l'.take (usizeOfI64 (rule.config.cheapestHours.getD 6)) ++
          l'.drop (usizeOfI64 (rule.config.cheapestHours.getD 6)) := by
        rw [List.take_append_drop]; exact hql
      rcases List.mem_append.mp hq2 with hcase | hcase
      · exact absurd (List.mem_map.mpr ⟨q, hcase, rfl⟩) hqts
      · exact hcase
    exact pairwise_take_le_drop hpair _ p' hp't q hqd

/-- Witness for C3 at a concrete input: three numeric prices, `N = 2`. -/
theorem cheapest_hours_selects_minimal_set_witness :
    ∃ ts : List HourTs,
      calculateTimestampsForRule
        (fun d => if d = 0 then
          [{ timestamp := 0, price := F.val 3 },
           { timestamp := 1, price := F.val 1 },
           { timestamp := 2, price := F.val 2 }] else [])
        { id := 7, ruleType := "cheapest_hours", action := "turn_on", isEnabled := true,
          config := { cheapestHours := some 2 } } 0 = some ts ∧
      ts.length = usizeOfI64 ((some (2 : Int)).getD 6) ∧
      computeScheduleForRuleInternal
        (fun d => if d = 0 then
          [{ timestamp := 0, price := F.val 3 },
           { timestamp := 1, price := F.val 1 },
           { timestamp := 2, price := F.val 2 }] else [])
        { id := 7, ruleType := "cheapest_hours", action := "turn_on", isEnabled := true,
          config := { cheapestHours := some 2 } } 0 [] =
        some ([] ++ ts.map (freshRow
          { id := 7, ruleType := "cheapest_hours", action := "turn_on", isEnabled := true,
            config := { cheapestHours := some 2 } }), ts.length) ∧
      (∀ p ∈ windowPrices
          (fun d => if d = 0 then
            [{ timestamp := 0, price := F.val 3 },
             { timestamp := 1, price := F.val 1 },
             { timestamp := 2, price := F.val 2 }] else [])
          { cheapestHours := some 2 } 0, p.timestamp ∈ ts →
        ∀ q ∈ windowPrices
          (fun d => if d = 0 then
            [{ timestamp := 0, price := F.val 3 },
             { timestamp := 1, price := F.val 1 },
             { timestamp := 2, price := F.val 2 }] else [])
          { cheapestHours := some 2 } 0, q.timestamp ∉ ts →
          F.le p.price q.price = true) :=
  cheapest_hours_selects_minimal_set _ _ 0 [] rfl (by decide) (by decide) (by decide)
    (by intro r hr; cases hr)

/-- C4: Schedule computation is idempotent: a second run of
`compute_schedule_for_rule_internal` for the same rule and date against the
store produced by the first run inserts zero rows and leaves the store —
hence every already-present row — unchanged. -/
theorem compute_schedule_idempotent
    (ps : PriceStore) (rule : AutomationRule) (date : Int) (st st1 : ExecStore) (c1 : Nat)
    (h : computeScheduleForRuleInternal ps rule date st = some (st1, c1)) :
    computeScheduleForRuleInternal ps rule date st1 = some (st1, 0) := by
  unfold computeScheduleForRuleInternal at h ⊢
  cases hc : calculateTimestampsForRule ps rule date with
  | none => rw [hc] at h; simp at h
  | some ts =>
    rw [hc] at h
    simp only [Option.map_some'] at h
    have hins : insertExecutions rule ts st = (st1, c1) := Option.some.inj h
    have hkeys : ∀ t ∈ ts, hasKey st1 rule.id t = true := by
      intro t ht
      have hpres := insertExecutions_keys_present rule ts st t ht
      rw [hins] at hpres
      exact hpres
    simp only [Option.map_some']
    rw [insertExecutions_noop rule ts st1 hkeys]

/-- Witness for C4 at a concrete input: re-running after one row was
inserted is a no-op. -/
theorem compute_schedule_idempotent_witness :
    computeScheduleForRuleInternal
      (fun d => if d = 0 then
        [{ timestamp := 1, price := F.val 2 }, { timestamp := 0, price := F.val 1 }] else [])
      { id := 3, ruleType := "cheapest_hours", action := "turn_on", isEnabled := true,
        config := { cheapestHours := some 1 } } 0
      [freshRow
        { id := 3, ruleType := "cheapest_hours", action := "turn_on", isEnabled := true,
          config := { cheapestHours := some 1 } } 0] =
      some ([freshRow
        { id := 3, ruleType := "cheapest_hours", action := "turn_on", isEnabled := true,
          config := { cheapestHours := some 1 } } 0], 0) :=
  compute_schedule_idempotent _ _ 0 [] _ 1 (by decide)

/-- C10 (the code, at the failing input): a NaN price makes the sort
comparator's `.unwrap()` panic, so `calculate_timestamps_for_rule` for a
CheapestHours rule — and likewise `find_cheapest_hours` — does not return a
result on a series containing a NaN price. -/
theorem cheapest_hours_panics_on_nan :
    calculateTimestampsForRule
      (fun d => if d = 0 then
        [{ timestamp := 0, price := F.nan }, { timestamp := 1, price := F.val 1 }] else [])
      { id := 1, ruleType := "cheapest_hours", action := "turn_on", isEnabled := true,
        config := {} } 0 = none ∧
    find_cheapest_hours
      [{ timestamp := 0, price := F.nan }, { timestamp := 1, price := F.val 1 }] 120 =
      none := by
  constructor
  · decide
  · decide

/-- C5 counterexample: with `comparison = "below"` and an hour priced
exactly at the threshold, the claim's predicate rejects the hour, yet
schedule computation selects it — the `"price_threshold"` branch filters on
`price <= threshold` and never reads `comparison`. -/
theorem price_threshold_claim_counterexample :
    specThresholdSelects "below" (F.val (mkRat 1 10)) (F.val (mkRat 1 10)) = false ∧
    (0 : HourTs) ∈ calcTimestampsThreshold
      (fun d => if d = 0 then [{ timestamp := 0, price := F.val (mkRat 1 10) }] else [])
      { priceThreshold := some (F.val (mkRat 1 10)) } 0 := by
  constructor
  · decide
  · decide

/-- C5 (amended). Schedule computation for a PriceThreshold rule
selects exactly the hours of the date whose price is `<=` the configured
`price_threshold` (default 0.10), ignoring any comparison field; the
reactive engine's `evaluate_price_threshold` is the part that implements
the claim's strict below/above comparison (and does not trigger without a
current price). -/
theorem price_threshold_semantics (ps : PriceStore) (cfg : RuleConfig) (date : Int)
    (t : HourTs) (tcfg : PriceThresholdConfig) (price : F) :
    (t ∈ calcTimestampsThreshold ps cfg date ↔
      ∃ p ∈ ps date, p.timestamp = t ∧
        F.le p.price (cfg.priceThreshold.getD (F.val (mkRat 1 10))) = true) ∧
    evaluatePriceThresholdTrigger tcfg (some price) =
      specThresholdSelects tcfg.comparison tcfg.threshold price ∧
    evaluatePriceThresholdTrigger tcfg none = false := by
  refine ⟨?_, rfl, rfl⟩
  simp only [calcTimestampsThreshold, List.mem_map, List.mem_filter]
  constructor
  · rintro ⟨p, ⟨hmem, hle⟩, hts⟩
    exact ⟨p, hmem, hts, hle⟩
  · rintro ⟨p, hmem, hts, hle⟩
    exact ⟨p, ⟨hmem, hle⟩, hts⟩

/-- Witness for C5's amended theorem at a concrete input: the engine's
trigger agrees with the spec predicate at price = threshold = 0. -/
theorem price_threshold_semantics_witness :
    evaluatePriceThresholdTrigger { threshold := F.val 0, comparison := "below" }
      (some (F.val 0)) = specThresholdSelects "below" (F.val 0) (F.val 0) :=
  (price_threshold_semantics (fun _ => []) {} 0 0
    { threshold := F.val 0, comparison := "below" } (F.val 0)).2.1

/-- C6 counterexample: a rule with a scheduled-execution row at the
current hour in status Executed still receives an inferred turn-off from
the code (only *Pending* rows at the hour exempt a rule), while the
claim exempts a rule with a row at the hour in any status. -/
theorem inferred_turn_off_counterexample :
    inferredTurnOffRules c6StateExecutedAtHour 0 10 = [c6Rule] ∧
    specInferredTurnOffRules c6StateExecutedAtHour 0 10 = [] := by
  constructor
  · decide
  · decide

/-- C6 (amended). `execute_current_hour` infers a turn-off exactly for
the enabled rules with action `"turn_on"` that have some
scheduled-execution row for the current day (any status) but no *Pending*
row at the current hour. -/
theorem inferred_turn_off_characterization
    (st : EngineState) (date : Int) (hour : Nat) (r : AutomationRule)
    (hr : r ∈ st.rules) :
    r ∈ inferredTurnOffRules st date hour ↔
      (r.isEnabled = true ∧ r.action = "turn_on" ∧
        (¬ ∃ e ∈ st.execs, e.ruleId = r.id ∧ e.scheduledHour = mkTs date hour ∧
            e.status = ExecutionStatus.pending) ∧
        (∃ e ∈ st.execs, e.ruleId = r.id ∧ mkTs date 0 ≤ e.scheduledHour ∧
            e.scheduledHour ≤ mkTs date 23)) := by
  have hcontains :
      ((scheduledRuleIds st (mkTs date hour)).contains r.id = true) ↔
        ∃ e ∈ st.execs, e.ruleId = r.id ∧ e.scheduledHour = mkTs date hour ∧
          e.status = ExecutionStatus.pending := by
    constructor
    · intro h
      have hmem' : r.id ∈ scheduledRuleIds st (mkTs date hour) := by
        simpa using h
      obtain ⟨e, hef, hid⟩ := List.mem_map.mp hmem'
      have h1 := List.mem_filter.mp hef
      have h2 := List.mem_filter.mp h1.1
      have hA := h2.2
      simp only [Bool.and_eq_true, beq_iff_eq] at hA
      exact ⟨e, h2.1, hid, hA.1, hA.2⟩
    · rintro ⟨e, hmem, hid, hhour, hstat⟩
      have hef : e ∈ (st.execs.filter
          (fun e => e.scheduledHour == mkTs date hour &&
            e.status == ExecutionStatus.pending)).filter
          (fun e => st.rules.any (fun r' => r'.id == e.ruleId)) := by
        refine List.mem_filter.mpr ⟨List.mem_filter.mpr ⟨hmem, ?_⟩, ?_⟩
        · simp [hhour, hstat]
        · simp only [List.any_eq_true, beq_iff_eq]
          exact ⟨r, hr, hid.symm⟩
      have hmem2 : r.id ∈ scheduledRuleIds st (mkTs date hour) :=
        List.mem_map.mpr ⟨e, hef, hid⟩
      simpa using hmem2
  have hncontains :
      ((scheduledRuleIds st (mkTs date hour)).contains r.id = false) ↔
        ¬ ∃ e ∈ st.execs, e.ruleId = r.id ∧ e.scheduledHour = mkTs date hour ∧
          e.status = ExecutionStatus.pending := by
    constructor
    · intro h hex
      have hc := hcontains.mpr hex
      rw [hc] at h
      exact Bool.noConfusion h
    · intro hne
      cases hb : (scheduledRuleIds st (mkTs date hour)).contains r.id with
      | false => rfl
      | true => exact absurd (hcontains.mp hb) hne
  constructor
  · intro hmem
    simp only [inferredTurnOffRules] at hmem
    have h1 := List.mem_filter.mp hmem
    have h2 := List.mem_filter.mp (by simpa only [rulesToTurnOff] using h1.1)
    have hP := h2.2
    simp only [Bool.and_eq_true, beq_iff_eq, Bool.not_eq_true'] at hP
    have hQ := h1.2
    simp only [hasScheduleToday, List.any_eq_true, Bool.and_eq_true, beq_iff_eq,
      decide_eq_true_eq] at hQ
    obtain ⟨e, he, ⟨hid, hge⟩, hle⟩ := hQ
    exact ⟨hP.1.1, hP.1.2, hncontains.mp hP.2, e, he, hid, hge, hle⟩
  · rintro ⟨hen, hact, hnp, e, he, hid, hge, hle⟩
    simp only [inferredTurnOffRules]
    refine List.mem_filter.mpr ⟨?_, ?_⟩
    · simp only [rulesToTurnOff]
      refine List.mem_filter.mpr ⟨hr, ?_⟩
      simp only [Bool.and_eq_true, beq_iff_eq, Bool.not_eq_true']
      exact ⟨⟨hen, hact⟩, hncontains.mpr hnp⟩
    · simp only [hasScheduleToday, List.any_eq_true, Bool.and_eq_true, beq_iff_eq,
        decide_eq_true_eq]
      exact ⟨e, he, ⟨hid, hge⟩, hle⟩

/-- Witness for C6's amended theorem at a concrete input: an enabled
TurnOn rule with a Pending row later today and no Pending row at hour 10
receives the inferred turn-off. -/
theorem inferred_turn_off_characterization_witness :
    c6Rule ∈ inferredTurnOffRules c6StatePendingLater 0 10 :=
  (inferred_turn_off_characterization c6StatePendingLater 0 10 c6Rule
    (by decide)).mpr (by decide)

/-- A single failure step preserves the retry-count invariant. -/
lemma retryInvariant_failStep (now : Int) (row : ExecRow) (h : RetryInvariant row) :
    RetryInvariant (failStep now row) := by
  unfold failStep
  by_cases hst : row.status = ExecutionStatus.pending ∨ row.status = ExecutionStatus.retrying
  · rw [if_pos hst]
    have hne : row.status ≠ ExecutionStatus.failed := by
      rcases hst with h1 | h1 <;> simp [h1]
    have hrc : row.retryCount ≤ 4 := h.2 hne
    unfold updateScheduledStatus applyUpdate RetryInvariant
    by_cases h5 : row.retryCount + 1 ≥ 5
    · simp only [Bool.false_eq_true, if_false, h5, if_true, Option.getD]
      constructor
      · omega
      · intro hcontra
        exact absurd rfl hcontra
    · simp only [Bool.false_eq_true, if_false, h5, Option.getD]
      constructor
      · omega
      · intro _
        omega
  · rw [if_neg hst]
    exact h

/-- Any sequence of failure steps preserves the retry-count invariant. -/
lemma retryInvariant_failSteps (nows : List Int) :
    ∀ row : ExecRow, RetryInvariant row → RetryInvariant (failSteps nows row) := by
  induction nows with
  | nil => intro row h; exact h
  | cons n rest ih =>
    intro row h
    simp only [failSteps, List.foldl_cons]
    exact ih _ (retryInvariant_failStep n row h)

/-- C7: A failed attempt increments `retry_count` by exactly one; the
row becomes Failed as soon as the incremented count reaches 5, and
otherwise Retrying with `next_retry_at` strictly in the future
(`now + 1 minute`); and along any sequence of engine-driven failure
updates the retry count never exceeds 5 before the row is Failed. -/
theorem update_scheduled_status_retry_policy
    (row : ExecRow) (now : Int) (nows : List Int) :
    ((updateScheduledStatus row false now).retryCount = row.retryCount + 1) ∧
    (5 ≤ row.retryCount + 1 →
      (updateScheduledStatus row false now).status = ExecutionStatus.failed) ∧
    (row.retryCount + 1 < 5 →
      (updateScheduledStatus row false now).status = ExecutionStatus.retrying ∧
      (updateScheduledStatus row false now).nextRetryAt = some (now + 60) ∧
      now < now + 60) ∧
    (RetryInvariant row → RetryInvariant (failSteps nows row)) := by
  refine ⟨?_, ?_, ?_, retryInvariant_failSteps nows row⟩
  · unfold updateScheduledStatus applyUpdate
    by_cases h5 : row.retryCount + 1 ≥ 5 <;> simp [h5]
  · intro h5
    unfold updateScheduledStatus applyUpdate
    simp [show row.retryCount + 1 ≥ 5 from h5]
  · intro h5
    unfold updateScheduledStatus applyUpdate
    have h5' : ¬ (row.retryCount + 1 ≥ 5) := by omega
    refine ⟨by simp [h5'], by simp [h5'], by omega⟩

/-- Witness for C7 at a concrete input: a fresh Pending row, one failure at
`now = 0`, and the invariant after six failure sweeps. -/
theorem update_scheduled_status_retry_policy_witness :
    (updateScheduledStatus c7PendingRow false 0).retryCount = c7PendingRow.retryCount + 1 ∧
    RetryInvariant (failSteps [0, 60, 120, 180, 240, 300] c7PendingRow) :=
  ⟨(update_scheduled_status_retry_policy c7PendingRow 0 []).1,
   (update_scheduled_status_retry_policy c7PendingRow 0
      [0, 60, 120, 180, 240, 300]).2.2.2
    ⟨by decide, fun _ => by decide⟩⟩

/-- C8: A `request` whose matching response never arrives returns
Timeout, and the pending-request table afterwards holds no entry with the
call's response filter — in particular not the entry the call registered,
so a subsequent request with the same filter starts from a clean table. -/
theorem request_timeout_clears_pending (tbl : PendingTable) (flt : String) :
    (requestTimedOut tbl flt).1 = MqttError.Timeout ∧
    (∀ r ∈ (requestTimedOut tbl flt).2, r.topicFilter ≠ flt) ∧
    (requestTimedOut tbl flt).2 = timeoutCleanup tbl flt := by
  refine ⟨rfl, ?_, ?_⟩
  · intro r hr
    unfold requestTimedOut timeoutCleanup at hr
    have hmem := List.mem_filter.mp hr
    simpa using hmem.2
  · unfold requestTimedOut timeoutCleanup registerPending
    rw [List.filter_append]
    simp

/-- Witness for C8 at a concrete input: a timed-out request over a
one-entry table returns Timeout. -/
theorem request_timeout_clears_pending_witness :
    (requestTimedOut [{ topicFilter := "other" }] "f").1 = MqttError.Timeout :=
  (request_timeout_clears_pending [{ topicFilter := "other" }] "f").1

/-- C1 (the code, at the failing input): the pending entry registered
by `send_command` filters on the outgoing `message_id`, but the event loop
matches filters against the inbound *topic*; a response arriving on the
client topic — the topic Meross devices answer on — does not contain the
32-hex message id, so even the response that carries the request's own
message id never resolves the request. -/
theorem send_command_response_not_matched :
    dispatchPublish
      [sendCommandPending (buildMessage c1Client "Appliance.Control.ToggleX" "SET"
        (JVal.jobj []) c1MsgId 1700000000)]
      (buildClientTopic c1Client) =
      ([sendCommandPending (buildMessage c1Client "Appliance.Control.ToggleX" "SET"
        (JVal.jobj []) c1MsgId 1700000000)], none) ∧
    filterMatches (buildClientTopic c1Client) c1MsgId = false := by
  constructor
  · decide
  · decide

set_option maxRecDepth 40000 in
/-- C2 counterexample: at `message_id = "a"`, `shared_secret = "b"`,
`timestamp = 1`, `payload_json = "\x7b\x7d"`, the code's signature is
`md5("ab1")` while the spec's formula gives
`md5("b" + "1" + "a" + base64("\x7b\x7d"))`, and the two digests differ. -/
theorem meross_sign_formula_counterexample :
    calculateSign "a" "b" 1 = "68b6a776378decbb4a79cda89087c4ce" ∧
    specSignature "a" "b" 1 "\x7b\x7d" = "08f3bfae96a562e54ee081311f3596e8" ∧
    calculateSign "a" "b" 1 ≠ specSignature "a" "b" 1 "\x7b\x7d" := by
  refine ⟨by decide, by decide, by decide⟩

/-- C2 (amended). Every envelope built by the client carries
`sign = md5(message_id + shared_key + timestamp)`; the payload does not
enter the signature at all. -/
theorem meross_sign_formula (st : MerossMqttClientState) (ns method : String)
    (payload payload' : JVal) (messageId : String) (timestamp : Int) :
    (buildMessage st ns method payload messageId timestamp).header.sign =
      MD5.md5hex (strBytes (messageId ++ st.key ++ toString timestamp)) ∧
    (buildMessage st ns method payload messageId timestamp).header.sign =
      (buildMessage st ns method payload' messageId timestamp).header.sign :=
  ⟨rfl, rfl⟩

/-- Witness for C2's amended theorem at a concrete input. -/
theorem meross_sign_formula_witness :
    (buildMessage c1Client "Appliance.Control.ToggleX" "SET" (JVal.jobj [])
      c1MsgId 1700000000).header.sign =
      MD5.md5hex (strBytes (c1MsgId ++ c1Client.key ++ toString (1700000000 : Int))) :=
  (meross_sign_formula c1Client "Appliance.Control.ToggleX" "SET" (JVal.jobj [])
    (JVal.jobj []) c1MsgId 1700000000).1

/-- C9 counterexample: `get_state` propagates connection failures to
its caller as errors — both when the client is not connected and when the
underlying request times out — instead of resolving to a default device
state as the claim asserts. -/
theorem get_state_propagates_errors :
    getState c9Disconnected (Except.error MqttError.Timeout) =
      Except.error (ProviderError.ConnectionError "Not connected to MQTT") ∧
    getState c9Connected (Except.error MqttError.Timeout) =
      Except.error (ProviderError.ConnectionError "MQTT operation timed out") := by
  constructor
  · rfl
  · rfl

/-- C9 (amended). `turn_on` and `turn_off` never propagate an error:
whenever `send_command` fails they resolve to an `Ok` failed-action result
carrying the error text, and they always return `Ok`; `get_state` instead
propagates the `send_command` error to its caller unchanged. -/
theorem meross_ops_error_handling (st : MerossMqttClientState)
    (res : Except MqttError (Except String MerossMessage)) :
    (∀ e : ProviderError, sendCommand st res = Except.error e →
      turnOn st res = Except.ok
        { success := false, message := some (providerErrorMessage e), newState := none } ∧
      turnOff st res = Except.ok
        { success := false, message := some (providerErrorMessage e), newState := none } ∧
      getState st res = Except.error e) ∧
    (∃ r, turnOn st res = Except.ok r) ∧
    (∃ r, turnOff st res = Except.ok r) := by
  refine ⟨?_, ?_, ?_⟩
  · intro e he
    refine ⟨?_, ?_, ?_⟩
    · simp only [turnOn, he]
    · simp only [turnOff, he]
    · simp only [getState, he]
  · cases hsc : sendCommand st res with
    | error e0 =>
      refine ⟨{ success := false, message := some (providerErrorMessage e0),
                newState := none }, ?_⟩
      simp only [turnOn, hsc]
    | ok payload =>
      refine ⟨{ success := true, message := some "Device turned on",
                newState := some { isOn := true, brightness := none,
                                   temperature := none,
                                   powerConsumptionWatts := none } }, ?_⟩
      simp only [turnOn, hsc]
  · cases hsc : sendCommand st res with
    | error e0 =>
      refine ⟨{ success := false, message := some (providerErrorMessage e0),
                newState := none }, ?_⟩
      simp only [turnOff, hsc]
    | ok payload =>
      refine ⟨{ success := true, message := some "Device turned off",
                newState := some { isOn := false, brightness := none,
                                   temperature := none,
                                   powerConsumptionWatts := none } }, ?_⟩
      simp only [turnOff, hsc]

/-- Witness for C9's amended theorem at a concrete input: the not-connected
client resolves `turn_on` to an `Ok` failed-action result. -/
theorem meross_ops_error_handling_witness :
    turnOn c9Disconnected (Except.error MqttError.Timeout) = Except.ok
      { success := false,
        message := some (providerErrorMessage
          (ProviderError.ConnectionError "Not connected to MQTT")),
        newState := none } :=
  ((meross_ops_error_handling c9Disconnected (Except.error MqttError.Timeout)).1
    (ProviderError.ConnectionError "Not connected to MQTT") rfl).1

end Pvpc
